import Mathlib

/-!
Shallow embedding of the aggregate-reporting and batch-state-transition
subsystem of a school-management backend (models `Promotion`, `FeeReminder`,
`Fee`, `Grade`; routes `promotions`, `fees`, `analytics`).

Numbers that JavaScript stores as IEEE doubles are modelled as rationals
(`ℚ`); dates are modelled as integer timestamps (`Int`).  Record structures
keep the fields the verified operations read or write; identifier fields
(`ObjectId`s) become `Nat`.
-/

namespace SchoolMS

/-- Exam kinds that may appear in `requirements.requiredExams`
(schema enum `['midterm', 'final']`). -/
inductive ExamKind where
  | midterm
  | final
deriving DecidableEq, Repr

/-- `promotionStatus` enum of the Promotion schema. -/
inductive PromotionStatus where
  | pending
  | eligible
  | promoted
  | held_back
  | under_review
deriving DecidableEq, Repr

/-- `feeStatus` enum on the Promotion schema (`['paid', 'partial', 'pending']`). -/
inductive PromotionFeeStatus where
  | paid
  | part
  | pending
deriving DecidableEq, Repr

/-- `status` enum of the Fee schema (`['pending', 'partial', 'paid', 'overdue']`);
the `partial` value is rendered `partlyPaid` here. -/
inductive FeeStatus where
  | pending
  | partlyPaid
  | paid
  | overdue
deriving DecidableEq, Repr

/-- `reminderType` enum of the FeeReminder schema. -/
inductive ReminderType where
  | before_due
  | on_due
  | after_due
  | final_notice
deriving DecidableEq, Repr

/-- `status` enum of the FeeReminder schema. -/
inductive ReminderStatus where
  | pending
  | sent
  | failed
  | acknowledged
deriving DecidableEq, Repr

/-- One exam snapshot inside `Promotion.examResults` (midterm or final). -/
structure ExamResult where
  completed : Bool
  averageScore : ℚ
  totalSubjects : Nat
  passedSubjects : Nat
deriving DecidableEq, Repr

/-- `Promotion.examResults`. -/
structure ExamResults where
  midterm : ExamResult
  final : ExamResult
deriving DecidableEq, Repr

/-- `Promotion.requirements`. -/
structure Requirements where
  minimumAttendance : ℚ
  minimumGrade : ℚ
  requiredExams : List ExamKind
deriving DecidableEq, Repr

/-- A Promotion record (fields the evaluator and the promote action touch). -/
structure Promotion where
  studentId : Nat
  studentName : String
  currentClass : String
  nextClass : String
  academicYear : String
  examResults : ExamResults
  overallAverage : ℚ
  promotionStatus : PromotionStatus
  promotionDate : Option Int
  requirements : Requirements
  attendancePercentage : ℚ
  feeStatus : PromotionFeeStatus
deriving DecidableEq, Repr

/-- A Student record (fields the promote action touches). -/
structure Student where
  id : Nat
  name : String
  studentClass : String
  academicYear : String
deriving DecidableEq, Repr

/-- Select the snapshot of one exam kind out of `examResults`. -/
def ExamResults.get (er : ExamResults) : ExamKind → ExamResult
  | ExamKind.midterm => er.midterm
  | ExamKind.final => er.final

/-- The condition computed by `checkPromotionEligibility` (Promotion.js
104–117): the local booleans `midtermMet`, `finalMet`, `attendanceMet`,
`gradeMet` and their conjunction.  `requiredExams.includes(...)` is the
membership test. -/
def eligibleBool (p : Promotion) : Bool :=
  let midtermRequired := decide (ExamKind.midterm ∈ p.requirements.requiredExams)
  let finalRequired := decide (ExamKind.final ∈ p.requirements.requiredExams)
  let midtermMet := !midtermRequired ||
    (p.examResults.midterm.completed &&
      decide (p.examResults.midterm.averageScore ≥ p.requirements.minimumGrade))
  let finalMet := !finalRequired ||
    (p.examResults.final.completed &&
      decide (p.examResults.final.averageScore ≥ p.requirements.minimumGrade))
  let attendanceMet := decide (p.attendancePercentage ≥ p.requirements.minimumAttendance)
  let gradeMet := decide (p.overallAverage ≥ p.requirements.minimumGrade)
  midtermMet && finalMet && attendanceMet && gradeMet

/-- `promotionSchema.methods.checkPromotionEligibility` (Promotion.js
100–132): recomputes `promotionStatus` from the snapshotted exam results,
attendance percentage, overall average and requirements, returning the
updated record.  `eligible` when every required exam is completed with
average at least `minimumGrade`, attendance meets `minimumAttendance` and
the overall average meets `minimumGrade`; `under_review` otherwise. -/
def checkPromotionEligibility (p : Promotion) : Promotion :=
  if eligibleBool p then
    { p with promotionStatus := PromotionStatus.eligible }
  else
    { p with promotionStatus := PromotionStatus.under_review }

/-- The spec-side eligibility condition, read off the claim text: every exam
kind in `requiredExams` is completed with average score at least
`minimumGrade`, attendance meets `minimumAttendance`, and the overall
average meets `minimumGrade`. -/
def EligibleSpec (p : Promotion) : Prop :=
  (∀ e ∈ p.requirements.requiredExams,
    (p.examResults.get e).completed = true ∧
      p.requirements.minimumGrade ≤ (p.examResults.get e).averageScore) ∧
  p.requirements.minimumAttendance ≤ p.attendancePercentage ∧
  p.requirements.minimumGrade ≤ p.overallAverage

instance (p : Promotion) : Decidable (EligibleSpec p) := by
  unfold EligibleSpec; infer_instance

/-- `promotionSchema.methods.promoteStudent` (Promotion.js 135–151): throws
when the record is not `eligible`; otherwise updates the Student row
(`class := nextClass`, `academicInfo.academicYear := academicYear`) and
stamps `promotionStatus = promoted`, `promotionDate = now`.  The `Except`
error case carries no new state: the stored Promotion and Student rows are
left as they were. -/
def promoteStudent (p : Promotion) (s : Student) (now : Int) :
    Except String (Promotion × Student) :=
  if p.promotionStatus ≠ PromotionStatus.eligible then
    Except.error "Student is not eligible for promotion"
  else
    Except.ok
      ({ p with promotionStatus := PromotionStatus.promoted, promotionDate := some now },
       { s with studentClass := p.nextClass, academicYear := p.academicYear })

/-- Per-student body of `POST /api/promotions/evaluate` (promotions.js
93–205) acting on an already existing Promotion record: the route looks the
record up by (studentId, academicYear, term) without filtering on its
current `promotionStatus`, overwrites the exam snapshots (only when fresh
grades exist — the `Option` arguments), the overall average (likewise),
the attendance percentage and the fee status, and then runs
`checkPromotionEligibility` before saving. -/
def evaluateExistingRecord (p : Promotion) (midtermSnap finalSnap : Option ExamResult)
    (overall : Option ℚ) (attendance : ℚ) (fs : PromotionFeeStatus) : Promotion :=
  checkPromotionEligibility
    { p with
      examResults :=
        { midterm := midtermSnap.getD p.examResults.midterm,
          final := finalSnap.getD p.examResults.final },
      overallAverage := overall.getD p.overallAverage,
      attendancePercentage := attendance,
      feeStatus := fs }

/-- One entry of `Fee.paymentHistory`. -/
structure PaymentEntry where
  amount : ℚ
  date : Int
  method : String
deriving DecidableEq, Repr

/-- A Fee record (fields the payment route, the pre-save hook, the reminder
scheduler and the financial aggregators read or write).  `studentId` is the
result of `populate`: `none` models a dangling student reference. -/
structure Fee where
  id : Nat
  studentId : Option Nat
  feeType : String
  amount : ℚ
  paidAmount : ℚ
  dueDate : Int
  paidDate : Option Int
  status : FeeStatus
  discount : ℚ
  lateFee : ℚ
  paymentHistory : List PaymentEntry
deriving DecidableEq, Repr

/-- The status portion of `feeSchema.pre('save')` (Grade.js 206–226):
`totalAmount = amount + lateFee - discount`; a fee with `paidAmount = 0`
is `overdue` when past due and `pending` otherwise; a nonzero `paidAmount`
gives `paid` when it covers `totalAmount` and `partial` otherwise. -/
def computeFeeStatus (amount lateFee discount paidAmount : ℚ)
    (dueDate now : Int) : FeeStatus :=
  let totalAmount := amount + lateFee - discount
  if paidAmount = 0 then
    if now > dueDate then FeeStatus.overdue else FeeStatus.pending
  else if paidAmount ≥ totalAmount then FeeStatus.paid
  else FeeStatus.partlyPaid

/-- `POST /api/fees/:id/payment` (fees.js 223–265) followed by the save-time
hooks: rejects a payment larger than the remaining balance; otherwise
appends a payment-history entry, adds the amount to `paidAmount`, updates
`paidDate`, and recomputes `status` via the pre-save hook.  The final
check models the schema validator `paidAmount: {min: 0}`, which makes the
save fail (leaving the stored record unchanged) when the new amount is
negative. -/
def processPayment (fee : Fee) (amount : ℚ) (method : String) (now : Int) :
    Except String Fee :=
  let totalAmount := fee.amount + fee.lateFee - fee.discount
  let remainingAmount := totalAmount - fee.paidAmount
  if amount > remainingAmount then
    Except.error "Payment amount exceeds remaining balance"
  else
    let newPaid := fee.paidAmount + amount
    let newPaidDate : Option Int :=
      if newPaid = 0 then none
      else if fee.paidDate = none ∨ newPaid ≥ totalAmount then some now
      else fee.paidDate
    if newPaid < 0 then Except.error "Fee validation failed"
    else Except.ok
      { fee with
          paidAmount := newPaid
          paymentHistory := fee.paymentHistory ++ [⟨amount, now, method⟩]
          paidDate := newPaidDate
          status := computeFeeStatus fee.amount fee.lateFee fee.discount newPaid
            fee.dueDate now }

/-- The letter-banding chain of `gradeSchema.pre('save')` (Grade.js 86–103),
as a function of the percentage. -/
def gradeOfPercentage (percentage : ℚ) : String :=
  if percentage ≥ 97 then "A+"
  else if percentage ≥ 93 then "A"
  else if percentage ≥ 90 then "A-"
  else if percentage ≥ 87 then "B+"
  else if percentage ≥ 83 then "B"
  else if percentage ≥ 80 then "B-"
  else if percentage ≥ 77 then "C+"
  else if percentage ≥ 73 then "C"
  else if percentage ≥ 70 then "C-"
  else if percentage ≥ 67 then "D+"
  else if percentage ≥ 65 then "D"
  else "F"

/-- `gradeLevel` as written at save time: the banding of
`(score / maxScore) * 100`. -/
def letterOf (score maxScore : ℚ) : String :=
  gradeOfPercentage (score / maxScore * 100)

/-- Position of a letter band in the order F < D < D+ < C- < ... < A+. -/
def bandRank : String → Nat
  | "A+" => 11
  | "A" => 10
  | "A-" => 9
  | "B+" => 8
  | "B" => 7
  | "B-" => 6
  | "C+" => 5
  | "C" => 4
  | "C-" => 3
  | "D+" => 2
  | "D" => 1
  | _ => 0

/-- The twelve letter bands. -/
def letterBands : List String :=
  ["A+", "A", "A-", "B+", "B", "B-", "C+", "C", "C-", "D+", "D", "F"]

/-- A Grade record (fields the aggregators read). -/
structure GradeRec where
  studentId : Nat
  subjectName : String
  score : ℚ
  maxScore : ℚ
deriving DecidableEq, Repr

/-- Accumulator of the `$group` stage of the `performanceData` aggregate in
`generateAnalytics`: running sums `totalScore` and `totalMaxScore` over the
documents of one subject group. -/
def aggTotals (g : List GradeRec) : ℚ × ℚ :=
  g.foldl (fun acc r => (acc.1 + r.score, acc.2 + r.maxScore)) (0, 0)

/-- The `$project` stage of the same aggregate:
`average = (totalScore / totalMaxScore) * 100` for one subject group. -/
def performanceAverage (g : List GradeRec) : ℚ :=
  (aggTotals g).1 / (aggTotals g).2 * 100

/-- A single record's percentage, `(score / maxScore) * 100`. -/
def recPercentage (r : GradeRec) : ℚ :=
  r.score / r.maxScore * 100

/-- Accumulator of the per-subject loop of
`GET /api/grades/analytics/student/:studentId` (analytics.js 1594–1621):
`total` is the running sum of the individual records' percentages and
`count` the number of records. -/
def routeSubjectTotals (g : List GradeRec) : ℚ × ℚ :=
  g.foldl (fun acc r => (acc.1 + recPercentage r, acc.2 + 1)) (0, 0)

/-- The per-subject `average` that route reports: `total / count`. -/
def routeSubjectAverage (g : List GradeRec) : ℚ :=
  (routeSubjectTotals g).1 / (routeSubjectTotals g).2

/-- The `overallAverage` the student-analytics route reports: the mean of
the per-subject averages, with the JavaScript guard `overallAverage || 0`
mapping the `NaN` of an empty subject list to 0. -/
def studentOverallReported (grades : List GradeRec) : ℚ :=
  let subjects := (grades.map (fun r => r.subjectName)).dedup
  let averages := subjects.map
    (fun s => routeSubjectAverage (grades.filter (fun r => r.subjectName = s)))
  if averages.length = 0 then 0 else averages.sum / averages.length

/-- The `averageScore` of `GET /api/grades/analytics/class/:classId`
(analytics.js 1654–1670): the mean of the individual records' percentages,
with the `averageScore || 0` guard mapping the `NaN` of an empty match to
0. -/
def classAverageReported (grades : List GradeRec) : ℚ :=
  if grades.length = 0 then 0
  else (grades.map recPercentage).sum / grades.length

/-- The `avgAttendance` computation of `generateAnalytics` (part_006
165–171): mean of the per-day rates when any exist, 0 otherwise. -/
def avgAttendanceReported (rates : List ℚ) : ℚ :=
  if rates.length > 0 then rates.sum / rates.length else 0

/-- The `collectionRate` of `GET /api/fees/analytics/overview`
(fees.js 283–335): `(totalPaid / totalAmount) * 100` guarded by
`totalAmount > 0`, else 0. -/
def collectionRateReported (fees : List Fee) : ℚ :=
  let totalAmount := (fees.map Fee.amount).sum
  let totalPaid := (fees.map Fee.paidAmount).sum
  if totalAmount > 0 then totalPaid / totalAmount * 100 else 0

/-- A FeeReminder record (fields the dedup check and the scheduler read). -/
structure Reminder where
  studentId : Nat
  feeId : Nat
  reminderType : ReminderType
  amount : ℚ
  status : ReminderStatus
deriving DecidableEq, Repr

/-- The dedup predicate of `FeeReminder.createReminders`: a reminder for
this `feeId` and `reminderType` whose status is `sent` or `pending`. -/
def isActiveFor (fid : Nat) (rt : ReminderType) (r : Reminder) : Prop :=
  r.feeId = fid ∧ r.reminderType = rt ∧
    (r.status = ReminderStatus.sent ∨ r.status = ReminderStatus.pending)

instance (fid : Nat) (rt : ReminderType) (r : Reminder) :
    Decidable (isActiveFor fid rt r) := by
  unfold isActiveFor; infer_instance

/-- The `findOne` dedup query: some stored reminder is active for the
pair. -/
def hasActive (st : List Reminder) (fid : Nat) (rt : ReminderType) : Prop :=
  ∃ r ∈ st, isActiveFor fid rt r

instance (st : List Reminder) (fid : Nat) (rt : ReminderType) :
    Decidable (hasActive st fid rt) := by
  unfold hasActive; exact List.decidableBEx _ st

/-- Number of stored reminders active for the pair. -/
def countActive (st : List Reminder) (fid : Nat) (rt : ReminderType) : Nat :=
  st.countP (fun r => decide (isActiveFor fid rt r))

/-- The reminder document `createReminders` builds for one fee: outstanding
`amount - paidAmount`, status `pending`. -/
def mkReminder (rt : ReminderType) (fee : Fee) : Reminder :=
  { studentId := fee.studentId.getD 0,
    feeId := fee.id,
    reminderType := rt,
    amount := fee.amount - fee.paidAmount,
    status := ReminderStatus.pending }

/-- The per-fee body of the `createReminders` loop (Promotion.js 397–427):
`if (!existingReminder && fee.studentId) { ... save ... }` — a new pending
reminder is stored only when no active reminder exists for the
(feeId, reminderType) pair and the populated student reference is
present. -/
def remindersStep (rt : ReminderType) (st : List Reminder) (fee : Fee) :
    List Reminder :=
  if ¬ hasActive st fee.id rt ∧ fee.studentId.isSome = true then
    st ++ [mkReminder rt fee]
  else st

/-- The fee query of `createReminders`: unpaid statuses (`pending`,
`partial`, `overdue`) inside the date window (`dateMatch`, the window
computed from `reminderType`, `daysBefore` and today). -/
def reminderFeeMatch (dateMatch : Int → Bool) (f : Fee) : Bool :=
  decide (f.status = FeeStatus.pending ∨ f.status = FeeStatus.partlyPaid ∨
    f.status = FeeStatus.overdue) && dateMatch f.dueDate

/-- `FeeReminder.createReminders` acting on the reminder store: the fee
query selects the matching unpaid fees, then the loop above runs over
them. -/
def createReminders (rt : ReminderType) (dateMatch : Int → Bool)
    (fees : List Fee) (st : List Reminder) : List Reminder :=
  (fees.filter (reminderFeeMatch dateMatch)).foldl (remindersStep rt) st

/-- One entry of the `errors` list of `processBulkPromotions`. -/
structure BulkError where
  studentId : Nat
  studentName : String
  errorMsg : String
deriving DecidableEq, Repr

/-- The `results` accumulator of `processBulkPromotions`. -/
structure BulkResults where
  promoted : Nat
  failed : Nat
  errors : List BulkError
deriving DecidableEq, Repr

/-- The body of the `try` block around `promotion.promoteStudent()` in
`processBulkPromotions` (Promotion.js 167–183): the eligibility guard of
`promoteStudent` re-runs, and the database writes (the Student update and
the save) may fail; `env` abstracts whether those writes succeed for a
given student. -/
def attemptPromote (env : Nat → Bool) (p : Promotion) : Except String Unit :=
  if p.promotionStatus ≠ PromotionStatus.eligible then
    Except.error "Student is not eligible for promotion"
  else if env p.studentId then Except.ok ()
  else Except.error "database error"

/-- One iteration of the bulk loop: `promoted++` on success, otherwise
`failed++` and an error entry for this student. -/
def bulkStep (env : Nat → Bool) (acc : BulkResults) (p : Promotion) :
    BulkResults :=
  match attemptPromote env p with
  | Except.ok _ => { acc with promoted := acc.promoted + 1 }
  | Except.error e =>
    { acc with
        failed := acc.failed + 1
        errors := acc.errors ++ [⟨p.studentId, p.studentName, e⟩] }

/-- The selection query of `processBulkPromotions`: records of the class
and academic year whose status is `eligible`. -/
def bulkSelect (classId academicYear : String) (records : List Promotion) :
    List Promotion :=
  records.filter (fun p =>
    decide (p.currentClass = classId) && decide (p.academicYear = academicYear) &&
      decide (p.promotionStatus = PromotionStatus.eligible))

/-- `Promotion.processBulkPromotions` (Promotion.js 154–186). -/
def processBulkPromotions (env : Nat → Bool) (classId academicYear : String)
    (records : List Promotion) : BulkResults :=
  (bulkSelect classId academicYear records).foldl (bulkStep env) ⟨0, 0, []⟩

/-! ## Theorems -/

/-- A property holds for every exam kind in a list exactly when it holds
for `midterm` whenever `midterm` is listed and for `final` whenever `final`
is listed (the only two exam kinds). -/
lemma forall_examKind_iff (l : List ExamKind) (P : ExamKind → Prop) :
    (∀ e ∈ l, P e) ↔
      ((ExamKind.midterm ∈ l → P ExamKind.midterm) ∧
        (ExamKind.final ∈ l → P ExamKind.final)) := by
  constructor
  · intro h
    exact ⟨fun hm => h _ hm, fun hf => h _ hf⟩
  · rintro ⟨h1, h2⟩ e he
    cases e
    · exact h1 he
    · exact h2 he

/-- The boolean eligibility condition of the source agrees with the
spec-side eligibility predicate. -/
lemma eligibleBool_iff (p : Promotion) : eligibleBool p = true ↔ EligibleSpec p := by
  unfold eligibleBool EligibleSpec
  rw [forall_examKind_iff]
  simp only [ExamResults.get, Bool.and_eq_true, Bool.or_eq_true, Bool.not_eq_true',
    decide_eq_true_iff, decide_eq_false_iff_not, ge_iff_le]
  tauto

/-- A sample snapshotted Promotion record that meets every requirement. -/
def goodPromotion : Promotion :=
  { studentId := 1
    studentName := "Alice Smith"
    currentClass := "Grade 5"
    nextClass := "Grade 6"
    academicYear := "2024-25"
    examResults :=
      { midterm := { completed := true, averageScore := 70, totalSubjects := 5, passedSubjects := 5 }
        final := { completed := true, averageScore := 80, totalSubjects := 5, passedSubjects := 5 } }
    overallAverage := 75
    promotionStatus := PromotionStatus.pending
    promotionDate := none
    requirements :=
      { minimumAttendance := 75, minimumGrade := 65,
        requiredExams := [ExamKind.midterm, ExamKind.final] }
    attendancePercentage := 80
    feeStatus := PromotionFeeStatus.paid }

/-- The same record with attendance dropped below `minimumAttendance`. -/
def lowAttendancePromotion : Promotion :=
  { goodPromotion with attendancePercentage := 60 }

/-- C1: `checkPromotionEligibility` is a deterministic pure function of the
snapshotted inputs; it sets `promotionStatus = eligible` exactly when every
exam kind in `requirements.requiredExams` is completed with average score
at least `minimumGrade`, the attendance percentage meets
`minimumAttendance`, and the overall average meets `minimumGrade`, and it
sets `promotionStatus = under_review` exactly otherwise.  (Determinism is
definitional: the embedding is a function of the record alone.) -/
theorem checkPromotionEligibility_correct (p : Promotion) :
    ((checkPromotionEligibility p).promotionStatus = PromotionStatus.eligible ↔
      EligibleSpec p) ∧
    ((checkPromotionEligibility p).promotionStatus = PromotionStatus.under_review ↔
      ¬ EligibleSpec p) := by
  unfold checkPromotionEligibility
  by_cases h : EligibleSpec p
  · rw [if_pos ((eligibleBool_iff p).mpr h)]
    simp [h]
  · have hb : ¬ (eligibleBool p = true) := fun hb => h ((eligibleBool_iff p).mp hb)
    rw [if_neg hb]
    simp [h]

/-- Concrete run of C1: the sample record meeting every requirement is
marked `eligible`, and dropping its attendance below the threshold marks
it `under_review`. -/
theorem checkPromotionEligibility_correct_witness :
    (checkPromotionEligibility goodPromotion).promotionStatus = PromotionStatus.eligible ∧
    (checkPromotionEligibility lowAttendancePromotion).promotionStatus =
      PromotionStatus.under_review :=
  ⟨(checkPromotionEligibility_correct goodPromotion).1.mpr (by decide),
   (checkPromotionEligibility_correct lowAttendancePromotion).2.mpr (by decide)⟩

/-- A sample Student row matching `goodPromotion`. -/
def sampleStudent : Student :=
  { id := 1, name := "Alice Smith", studentClass := "Grade 5", academicYear := "2023-24" }

/-- `goodPromotion` after the evaluator marked it `eligible`. -/
def eligiblePromotion : Promotion :=
  { goodPromotion with promotionStatus := PromotionStatus.eligible }

/-- C2: `promoteStudent` is guarded.  On a record whose status is not
`eligible` it fails with the ineligibility error, and since the `error`
branch carries no updated state, the stored Student row (its class) and
the Promotion row (status, date) stay as they were.  On an `eligible`
record it moves the Student to `nextClass` (and its academic year along),
stamps `promotionStatus = promoted` and `promotionDate = now`. -/
theorem promoteStudent_guarded (p : Promotion) (s : Student) (now : Int) :
    (p.promotionStatus ≠ PromotionStatus.eligible →
      promoteStudent p s now = Except.error "Student is not eligible for promotion") ∧
    (p.promotionStatus = PromotionStatus.eligible →
      promoteStudent p s now = Except.ok
        ({ p with promotionStatus := PromotionStatus.promoted, promotionDate := some now },
         { s with studentClass := p.nextClass, academicYear := p.academicYear })) := by
  unfold promoteStudent
  constructor
  · intro h
    rw [if_pos h]
  · intro h
    rw [if_neg (by simp [h])]

/-- Concrete run of C2: promoting the eligible sample record moves the
student to Grade 6 and stamps the record; promoting the still-`pending`
sample record fails with the ineligibility error. -/
theorem promoteStudent_guarded_witness :
    promoteStudent eligiblePromotion sampleStudent 100 = Except.ok
      ({ eligiblePromotion with
          promotionStatus := PromotionStatus.promoted
          promotionDate := some 100 },
       { sampleStudent with
          studentClass := eligiblePromotion.nextClass
          academicYear := eligiblePromotion.academicYear }) ∧
    promoteStudent goodPromotion sampleStudent 100 =
      Except.error "Student is not eligible for promotion" :=
  ⟨(promoteStudent_guarded eligiblePromotion sampleStudent 100).2 rfl,
   (promoteStudent_guarded goodPromotion sampleStudent 100).1 (by decide)⟩

/-- `goodPromotion` after a successful promote action. -/
def promotedPromotion : Promotion :=
  { goodPromotion with
      promotionStatus := PromotionStatus.promoted
      promotionDate := some 50 }

/-- C3 (failing run): the evaluate route looks existing Promotion records
up without filtering on `promotionStatus` and runs
`checkPromotionEligibility` on each, which overwrites the status with
`eligible` or `under_review` unconditionally.  Re-running evaluation over
a record already in the `promoted` state therefore changes its status —
`promoted` is not terminal in the code. -/
theorem promoted_demoted_by_evaluate :
    promotedPromotion.promotionStatus = PromotionStatus.promoted ∧
    (evaluateExistingRecord promotedPromotion none none none 80
        PromotionFeeStatus.paid).promotionStatus = PromotionStatus.eligible := by
  decide

/-- `attemptPromote` collapsed to its success bit. -/
def attemptOk (env : Nat → Bool) (p : Promotion) : Bool :=
  match attemptPromote env p with
  | Except.ok _ => true
  | Except.error _ => false

/-- The message `attemptPromote` fails with (empty string on success). -/
def attemptErrMsg (env : Nat → Bool) (p : Promotion) : String :=
  match attemptPromote env p with
  | Except.ok _ => ""
  | Except.error e => e

/-- The `errors` entry the bulk loop records for a failing record. -/
def mkBulkError (env : Nat → Bool) (p : Promotion) : BulkError :=
  ⟨p.studentId, p.studentName, attemptErrMsg env p⟩

/-- Unfolding the bulk loop: starting from any accumulator, the fold adds
one `promoted` per succeeding record, one `failed` plus one error entry
per failing record, each contribution a function of that record alone. -/
lemma bulk_foldl (env : Nat → Bool) (l : List Promotion) (acc : BulkResults) :
    l.foldl (bulkStep env) acc =
      { promoted := acc.promoted + (l.filter (attemptOk env)).length
        failed := acc.failed + (l.filter (fun p => !attemptOk env p)).length
        errors := acc.errors ++ (l.filter (fun p => !attemptOk env p)).map (mkBulkError env) } := by
  induction l generalizing acc with
  | nil => simp
  | cons p l ih =>
    rw [List.foldl_cons, ih]
    cases h : attemptPromote env p with
    | ok u =>
      have hok : attemptOk env p = true := by simp [attemptOk, h]
      have hstep : bulkStep env acc p = { acc with promoted := acc.promoted + 1 } := by
        simp [bulkStep, h]
      rw [hstep]
      simp [List.filter_cons, hok]
      omega
    | error e =>
      have hok : attemptOk env p = false := by simp [attemptOk, h]
      have hstep : bulkStep env acc p =
          { acc with
              failed := acc.failed + 1
              errors := acc.errors ++ [⟨p.studentId, p.studentName, e⟩] } := by
        simp [bulkStep, h]
      rw [hstep]
      have hmsg : mkBulkError env p = ⟨p.studentId, p.studentName, e⟩ := by
        simp [mkBulkError, attemptErrMsg, h]
      simp [List.filter_cons, hok, hmsg]
      omega

/-- Splitting a list by a boolean predicate partitions its length. -/
lemma filter_length_partition {α : Type} (l : List α) (f : α → Bool) :
    (l.filter f).length + (l.filter (fun a => !f a)).length = l.length := by
  induction l with
  | nil => simp
  | cons a l ih =>
    cases h : f a <;> simp [List.filter_cons, h] <;> omega

/-- C4: bulk promotion is partition-independent.  Over the selected
records (the class/year filter with status `eligible`), the promoted
count, the failed count and the error list are images of per-record
functions: each record's outcome depends only on that record (and whether
its own database writes succeed, `env`), a failure contributes exactly its
own error entry without aborting the loop, and
`promoted + failed = number of selected records` with one error entry per
failure. -/
theorem processBulkPromotions_partition (env : Nat → Bool)
    (classId academicYear : String) (records : List Promotion) :
    (processBulkPromotions env classId academicYear records).promoted =
      ((bulkSelect classId academicYear records).filter (attemptOk env)).length ∧
    (processBulkPromotions env classId academicYear records).failed =
      ((bulkSelect classId academicYear records).filter (fun p => !attemptOk env p)).length ∧
    (processBulkPromotions env classId academicYear records).errors =
      ((bulkSelect classId academicYear records).filter (fun p => !attemptOk env p)).map
        (mkBulkError env) ∧
    (processBulkPromotions env classId academicYear records).promoted +
        (processBulkPromotions env classId academicYear records).failed =
      (bulkSelect classId academicYear records).length ∧
    (processBulkPromotions env classId academicYear records).errors.length =
      (processBulkPromotions env classId academicYear records).failed := by
  unfold processBulkPromotions
  rw [bulk_foldl]
  refine ⟨by simp, by simp, by simp, ?_, by simp⟩
  simp [filter_length_partition]

/-- First record of the sample bulk batch (student 1, eligible). -/
def bulkRecA : Promotion :=
  { eligiblePromotion with studentId := 1, currentClass := "Grade 5" }

/-- Second record of the sample bulk batch (student 2, eligible). -/
def bulkRecB : Promotion :=
  { eligiblePromotion with
      studentId := 2
      studentName := "Bob Jones"
      currentClass := "Grade 5" }

/-- An environment in which the database writes fail for student 2 only. -/
def envFail2 : Nat → Bool := fun n => n ≠ 2

/-- Concrete run of C4: two eligible records, the database write failing
for student 2 only; student 1 is still promoted, the counts add up, and
the single error entry names student 2. -/
theorem processBulkPromotions_partition_witness :
    (processBulkPromotions envFail2 "Grade 5" "2024-25" [bulkRecA, bulkRecB]).promoted = 1 ∧
    (processBulkPromotions envFail2 "Grade 5" "2024-25" [bulkRecA, bulkRecB]).failed = 1 ∧
    (processBulkPromotions envFail2 "Grade 5" "2024-25" [bulkRecA, bulkRecB]).errors =
      [⟨2, "Bob Jones", "database error"⟩] := by
  refine ⟨?_, ?_, ?_⟩
  · rw [(processBulkPromotions_partition envFail2 "Grade 5" "2024-25" [bulkRecA, bulkRecB]).1]
    decide
  · rw [(processBulkPromotions_partition envFail2 "Grade 5" "2024-25" [bulkRecA, bulkRecB]).2.1]
    decide
  · rw [(processBulkPromotions_partition envFail2 "Grade 5" "2024-25" [bulkRecA, bulkRecB]).2.2.1]
    decide

/-- Appending reminders never deactivates a pair: one loop step preserves
`hasActive`. -/
lemma hasActive_step_mono (rt : ReminderType) (st : List Reminder) (fee : Fee)
    {fid : Nat} {rt2 : ReminderType} (h : hasActive st fid rt2) :
    hasActive (remindersStep rt st fee) fid rt2 := by
  unfold remindersStep
  split
  · obtain ⟨r, hr, hractive⟩ := h
    exact ⟨r, List.mem_append_left _ hr, hractive⟩
  · exact h

/-- After the loop step for a fee with a present student reference, the
(feeId, reminderType) pair has an active reminder (either it already had
one, or the freshly stored pending one). -/
lemma hasActive_after_step (rt : ReminderType) (st : List Reminder) (fee : Fee)
    (hs : fee.studentId.isSome = true) :
    hasActive (remindersStep rt st fee) fee.id rt := by
  unfold remindersStep
  split
  next hcond =>
    refine ⟨mkReminder rt fee, List.mem_append_right _ (List.mem_singleton.mpr rfl), ?_⟩
    exact ⟨rfl, rfl, Or.inr rfl⟩
  next hcond =>
    by_contra hna
    exact hcond ⟨hna, hs⟩

/-- The whole loop preserves `hasActive`. -/
lemma hasActive_foldl_mono (rt : ReminderType) (l : List Fee) (st : List Reminder)
    {fid : Nat} {rt2 : ReminderType} (h : hasActive st fid rt2) :
    hasActive (l.foldl (remindersStep rt) st) fid rt2 := by
  induction l generalizing st with
  | nil => exact h
  | cons a l ih => exact ih _ (hasActive_step_mono rt st a h)

/-- After the loop runs over a list containing a fee with a present
student reference, that fee's pair has an active reminder. -/
lemma hasActive_foldl_of_mem (rt : ReminderType) (l : List Fee) (st : List Reminder)
    {f : Fee} (hf : f ∈ l) (hs : f.studentId.isSome = true) :
    hasActive (l.foldl (remindersStep rt) st) f.id rt := by
  induction l generalizing st with
  | nil => cases hf
  | cons a l ih =>
    rcases List.mem_cons.mp hf with heq | hmem
    · subst heq
      exact hasActive_foldl_mono rt l _ (hasActive_after_step rt st f hs)
    · exact ih _ hmem

/-- A loop over fees whose pairs are all already active (or whose student
reference is missing) stores nothing. -/
lemma foldl_remindersStep_id (rt : ReminderType) (l : List Fee) (st : List Reminder)
    (h : ∀ f ∈ l, hasActive st f.id rt ∨ f.studentId.isSome = false) :
    l.foldl (remindersStep rt) st = st := by
  induction l with
  | nil => rfl
  | cons a l ih =>
    have hstep : remindersStep rt st a = st := by
      unfold remindersStep
      rw [if_neg]
      rintro ⟨h1, h2⟩
      rcases h a (List.mem_cons_self a l) with hact | hnone
      · exact h1 hact
      · rw [hnone] at h2
        simp at h2
    rw [List.foldl_cons, hstep]
    exact ih (fun f hf => h f (List.mem_cons_of_mem a hf))

/-- Appending a reminder that is active for the pair raises its active
count by one. -/
lemma countActive_append_active (st : List Reminder) (r : Reminder) (fid : Nat)
    (rt : ReminderType) (h : isActiveFor fid rt r) :
    countActive (st ++ [r]) fid rt = countActive st fid rt + 1 := by
  unfold countActive
  rw [List.countP_append]
  simp [List.countP_cons, h]

/-- Appending a reminder that is not active for the pair leaves its active
count unchanged. -/
lemma countActive_append_inactive (st : List Reminder) (r : Reminder) (fid : Nat)
    (rt : ReminderType) (h : ¬ isActiveFor fid rt r) :
    countActive (st ++ [r]) fid rt = countActive st fid rt := by
  unfold countActive
  rw [List.countP_append]
  simp [List.countP_cons, h]

/-- A pair has an active reminder exactly when its active count is
positive. -/
lemma hasActive_iff_pos (st : List Reminder) (fid : Nat) (rt : ReminderType) :
    hasActive st fid rt ↔ 0 < countActive st fid rt := by
  unfold hasActive countActive
  rw [List.countP_pos_iff]
  simp only [decide_eq_true_eq]

/-- One loop step keeps every pair's active count at most one: a reminder
is only stored when the pair's count was zero. -/
lemma countActive_step_le (rt : ReminderType) (st : List Reminder) (fee : Fee)
    (fid : Nat) (rt2 : ReminderType) (h : countActive st fid rt2 ≤ 1) :
    countActive (remindersStep rt st fee) fid rt2 ≤ 1 := by
  unfold remindersStep
  split
  next hc =>
    by_cases hm : isActiveFor fid rt2 (mkReminder rt fee)
    · obtain ⟨hfid, hrt, _⟩ := hm
      have hfid' : fee.id = fid := hfid
      have hrt' : rt = rt2 := hrt
      have h0 : countActive st fid rt2 = 0 := by
        by_contra hne
        have hpos : 0 < countActive st fid rt2 := Nat.pos_of_ne_zero hne
        have hact : hasActive st fid rt2 := (hasActive_iff_pos st fid rt2).mpr hpos
        rw [← hfid', ← hrt'] at hact
        exact hc.1 hact
      rw [countActive_append_active st _ fid rt2 (by exact ⟨hfid, hrt, Or.inr rfl⟩), h0]
    · rw [countActive_append_inactive st _ fid rt2 hm]
      exact h
  next => exact h

/-- The whole loop keeps every pair's active count at most one. -/
lemma countActive_foldl_le (rt : ReminderType) (l : List Fee) (st : List Reminder)
    (fid : Nat) (rt2 : ReminderType) (h : countActive st fid rt2 ≤ 1) :
    countActive (l.foldl (remindersStep rt) st) fid rt2 ≤ 1 := by
  induction l generalizing st with
  | nil => exact h
  | cons a l ih => exact ih _ (countActive_step_le rt st a fid rt2 h)

/-- C5: the reminder dedup invariant.  (1) A loop step stores a new
reminder for a (feeId, reminderType) pair only when no reminder for that
pair is `pending` or `sent`; (2) if every pair starts with at most one
active reminder, that stays true after a `createReminders` run; (3) after
a run, every matched fee with a present student reference has an active
reminder — with (2), exactly one; (4) running `createReminders` twice
with identical parameters and no intervening change adds nothing the
second time. -/
theorem createReminders_dedup (rt : ReminderType) (dateMatch : Int → Bool)
    (fees : List Fee) (st : List Reminder) :
    (∀ f, hasActive st f.id rt → remindersStep rt st f = st) ∧
    ((∀ fid rt2, countActive st fid rt2 ≤ 1) →
      ∀ fid rt2, countActive (createReminders rt dateMatch fees st) fid rt2 ≤ 1) ∧
    (∀ f ∈ fees, reminderFeeMatch dateMatch f = true → f.studentId.isSome = true →
      0 < countActive (createReminders rt dateMatch fees st) f.id rt) ∧
    createReminders rt dateMatch fees (createReminders rt dateMatch fees st) =
      createReminders rt dateMatch fees st := by
  refine ⟨?_, ?_, ?_, ?_⟩
  · intro f hf
    unfold remindersStep
    rw [if_neg]
    rintro ⟨h1, _⟩
    exact h1 hf
  · intro hinv fid rt2
    unfold createReminders
    exact countActive_foldl_le rt _ st fid rt2 (hinv fid rt2)
  · intro f hf hmatch hs
    unfold createReminders
    have hfmem : f ∈ fees.filter (reminderFeeMatch dateMatch) :=
      List.mem_filter.mpr ⟨hf, hmatch⟩
    exact (hasActive_iff_pos _ _ _).mp (hasActive_foldl_of_mem rt _ st hfmem hs)
  · unfold createReminders
    apply foldl_remindersStep_id
    intro f hf
    cases hs : f.studentId.isSome with
    | false => exact Or.inr rfl
    | true => exact Or.inl (hasActive_foldl_of_mem rt _ st hf hs)

/-- An unpaid sample fee due at time 10 with a present student
reference. -/
def sampleFee : Fee :=
  { id := 1
    studentId := some 1
    feeType := "tuition"
    amount := 100
    paidAmount := 0
    dueDate := 10
    paidDate := none
    status := FeeStatus.pending
    discount := 0
    lateFee := 0
    paymentHistory := [] }

/-- Concrete run of C5: one matched unpaid fee, an empty reminder store;
after a run the pair has an active reminder, and a second identical run
changes nothing. -/
theorem createReminders_dedup_witness :
    0 < countActive (createReminders ReminderType.before_due (fun _ => true) [sampleFee] [])
        sampleFee.id ReminderType.before_due ∧
    createReminders ReminderType.before_due (fun _ => true) [sampleFee]
        (createReminders ReminderType.before_due (fun _ => true) [sampleFee] []) =
      createReminders ReminderType.before_due (fun _ => true) [sampleFee] [] :=
  ⟨(createReminders_dedup ReminderType.before_due (fun _ => true) [sampleFee] []).2.2.1
      sampleFee (List.mem_singleton.mpr rfl) (by decide) (by decide),
   (createReminders_dedup ReminderType.before_due (fun _ => true) [sampleFee] []).2.2.2⟩

/-- C6 (counterexample): the claim orders the cases
`paidAmount ≥ totalDue ⇒ paid` first, but the hook checks
`paidAmount === 0` first.  A fee with `amount = 0`, no late fee and no
discount has `totalDue = 0`, so `paidAmount = 0 ≥ totalDue` — the claim
demands `paid` — yet the hook computes `pending` (due date not past). -/
theorem computeFeeStatus_claim_counterexample :
    (0 : ℚ) ≥ 0 + 0 - 0 ∧
    ¬ ((0 : Int) > 1) ∧
    computeFeeStatus 0 0 0 0 1 0 = FeeStatus.pending ∧
    computeFeeStatus 0 0 0 0 1 0 ≠ FeeStatus.paid := by
  refine ⟨by norm_num, by decide, ?_, ?_⟩ <;> decide

/-- C6 (amended): the fee status hook is a pure function of
`(amount, lateFee, discount, paidAmount, dueDate, now)` with the
`paidAmount = 0` case taking precedence: a zero `paidAmount` gives
`overdue` when past due and `pending` otherwise; a nonzero `paidAmount`
gives `paid` when it covers `totalDue = amount + lateFee - discount` and
`partial` otherwise; recomputing from the same inputs yields the same
status. -/
theorem computeFeeStatus_characterization (amount lateFee discount paidAmount : ℚ)
    (dueDate now : Int) :
    (paidAmount = 0 → now > dueDate →
      computeFeeStatus amount lateFee discount paidAmount dueDate now = FeeStatus.overdue) ∧
    (paidAmount = 0 → ¬ now > dueDate →
      computeFeeStatus amount lateFee discount paidAmount dueDate now = FeeStatus.pending) ∧
    (paidAmount ≠ 0 → paidAmount ≥ amount + lateFee - discount →
      computeFeeStatus amount lateFee discount paidAmount dueDate now = FeeStatus.paid) ∧
    (paidAmount ≠ 0 → paidAmount < amount + lateFee - discount →
      computeFeeStatus amount lateFee discount paidAmount dueDate now = FeeStatus.partlyPaid) ∧
    computeFeeStatus amount lateFee discount paidAmount dueDate now =
      computeFeeStatus amount lateFee discount paidAmount dueDate now := by
  refine ⟨?_, ?_, ?_, ?_, rfl⟩
  · intro h0 hd
    simp [computeFeeStatus, h0, hd]
  · intro h0 hd
    simp [computeFeeStatus, h0, hd]
  · intro h0 hge
    simp [computeFeeStatus, h0, hge]
  · intro h0 hlt
    have hnge : ¬ (paidAmount ≥ amount + lateFee - discount) := not_le.mpr hlt
    simp [computeFeeStatus, h0, hnge]

/-- Concrete runs of C6 (amended): a half-paid fee is `partial`, a fully
paid one (with a late fee covered) is `paid`, an untouched fee past its
due date is `overdue`. -/
theorem computeFeeStatus_characterization_witness :
    computeFeeStatus 100 0 0 50 10 5 = FeeStatus.partlyPaid ∧
    computeFeeStatus 100 20 0 120 10 5 = FeeStatus.paid ∧
    computeFeeStatus 100 0 0 0 10 20 = FeeStatus.overdue :=
  ⟨(computeFeeStatus_characterization 100 0 0 50 10 5).2.2.2.1
      (by norm_num) (by norm_num),
   (computeFeeStatus_characterization 100 20 0 120 10 5).2.2.1
      (by norm_num) (by norm_num),
   (computeFeeStatus_characterization 100 0 0 0 10 20).1 rfl (by decide)⟩

/-- Value of a descending threshold chain, as a function of the vector of
threshold tests: the position (from the bottom) of the first `true`. -/
def chainVal : List Bool → Nat
  | [] => 0
  | b :: bs => if b then bs.length + 1 else chainVal bs

/-- The eleven threshold tests of the banding chain, highest first. -/
def thresholdBools (p : ℚ) : List Bool :=
  [decide (p ≥ 97), decide (p ≥ 93), decide (p ≥ 90), decide (p ≥ 87),
   decide (p ≥ 83), decide (p ≥ 80), decide (p ≥ 77), decide (p ≥ 73),
   decide (p ≥ 70), decide (p ≥ 67), decide (p ≥ 65)]

/-- Numeric rank of the band a percentage falls in. -/
def rankOfPercentage (p : ℚ) : Nat := chainVal (thresholdBools p)

/-- A chain value is at most the number of thresholds. -/
lemma chainVal_le_length (bs : List Bool) : chainVal bs ≤ bs.length := by
  induction bs with
  | nil => simp [chainVal]
  | cons b bs ih =>
    cases b
    · have := ih
      simp [chainVal]
      omega
    · simp [chainVal]

/-- A pointwise-larger threshold vector has a chain value at least as
large. -/
lemma chainVal_mono {bs cs : List Bool}
    (h : List.Forall₂ (fun b c => b = true → c = true) bs cs) :
    chainVal bs ≤ chainVal cs := by
  induction h with
  | nil => exact le_refl _
  | cons hbc hrest ih =>
    rename_i b c bs cs
    have hlen : bs.length = cs.length := List.Forall₂.length_eq hrest
    cases hb : b
    · cases hc : c
      · simpa [chainVal] using ih
      · have := chainVal_le_length bs
        simp [chainVal, hlen] at *
        omega
    · have hc : c = true := hbc hb
      simp [chainVal, hb, hc, hlen]

/-- Every percentage lands in one of the twelve letter bands, and the band
of a percentage has rank `rankOfPercentage`. -/
lemma gradeOfPercentage_mem_rank (p : ℚ) :
    gradeOfPercentage p ∈ letterBands ∧
      bandRank (gradeOfPercentage p) = rankOfPercentage p := by
  unfold gradeOfPercentage rankOfPercentage thresholdBools
  by_cases h1 : p ≥ 97
  · rw [if_pos h1]
    exact ⟨by simp [letterBands], by simp [chainVal, h1, bandRank]⟩
  · rw [if_neg h1]
    by_cases h2 : p ≥ 93
    · rw [if_pos h2]
      exact ⟨by simp [letterBands], by simp [chainVal, h1, h2, bandRank]⟩
    · rw [if_neg h2]
      by_cases h3 : p ≥ 90
      · rw [if_pos h3]
        exact ⟨by simp [letterBands], by simp [chainVal, h1, h2, h3, bandRank]⟩
      · rw [if_neg h3]
        by_cases h4 : p ≥ 87
        · rw [if_pos h4]
          exact ⟨by simp [letterBands], by simp [chainVal, h1, h2, h3, h4, bandRank]⟩
        · rw [if_neg h4]
          by_cases h5 : p ≥ 83
          · rw [if_pos h5]
            exact ⟨by simp [letterBands], by simp [chainVal, h1, h2, h3, h4, h5, bandRank]⟩
          · rw [if_neg h5]
            by_cases h6 : p ≥ 80
            · rw [if_pos h6]
              exact ⟨by simp [letterBands],
                by simp [chainVal, h1, h2, h3, h4, h5, h6, bandRank]⟩
            · rw [if_neg h6]
              by_cases h7 : p ≥ 77
              · rw [if_pos h7]
                exact ⟨by simp [letterBands],
                  by simp [chainVal, h1, h2, h3, h4, h5, h6, h7, bandRank]⟩
              · rw [if_neg h7]
                by_cases h8 : p ≥ 73
                · rw [if_pos h8]
                  exact ⟨by simp [letterBands],
                    by simp [chainVal, h1, h2, h3, h4, h5, h6, h7, h8, bandRank]⟩
                · rw [if_neg h8]
                  by_cases h9 : p ≥ 70
                  · rw [if_pos h9]
                    exact ⟨by simp [letterBands],
                      by simp [chainVal, h1, h2, h3, h4, h5, h6, h7, h8, h9, bandRank]⟩
                  · rw [if_neg h9]
                    by_cases h10 : p ≥ 67
                    · rw [if_pos h10]
                      exact ⟨by simp [letterBands],
                        by simp [chainVal, h1, h2, h3, h4, h5, h6, h7, h8, h9, h10, bandRank]⟩
                    · rw [if_neg h10]
                      by_cases h11 : p ≥ 65
                      · rw [if_pos h11]
                        exact ⟨by simp [letterBands],
                          by simp [chainVal, h1, h2, h3, h4, h5, h6, h7, h8, h9, h10, h11,
                            bandRank]⟩
                      · rw [if_neg h11]
                        exact ⟨by simp [letterBands],
                          by simp [chainVal, h1, h2, h3, h4, h5, h6, h7, h8, h9, h10, h11,
                            bandRank]⟩

/-- The banding chain is monotone: a higher percentage never yields a band
of lower rank. -/
lemma bandRank_gradeOfPercentage_mono {p q : ℚ} (h : p ≤ q) :
    bandRank (gradeOfPercentage p) ≤ bandRank (gradeOfPercentage q) := by
  rw [(gradeOfPercentage_mem_rank p).2, (gradeOfPercentage_mem_rank q).2]
  apply chainVal_mono
  unfold thresholdBools
  refine List.Forall₂.cons ?_ (List.Forall₂.cons ?_ (List.Forall₂.cons ?_
    (List.Forall₂.cons ?_ (List.Forall₂.cons ?_ (List.Forall₂.cons ?_
    (List.Forall₂.cons ?_ (List.Forall₂.cons ?_ (List.Forall₂.cons ?_
    (List.Forall₂.cons ?_ (List.Forall₂.cons ?_ List.Forall₂.nil)))))))))) <;>
  · intro hb
    have := of_decide_eq_true hb
    exact decide_eq_true (by linarith)

/-- Every percentage lands in exactly one of the twelve letter bands. -/
lemma gradeOfPercentage_mem (p : ℚ) : gradeOfPercentage p ∈ letterBands :=
  (gradeOfPercentage_mem_rank p).1

/-- C7: the letter banding of `(score, maxScore)` (the pre-save hook of the
Grade schema) is a total pure function into
{A+, A, A-, B+, B, B-, C+, C, C-, D+, D, F}, using the thresholds
97/93/90/87/83/80/77/73/70/67/65 on `percentage = score / maxScore * 100`,
and is monotone: a pair with a percentage at least as high never gets a
band of lower rank. -/
theorem letterOf_total_monotone (score maxScore : ℚ)
    (h0 : 0 ≤ score) (h1 : 1 ≤ maxScore) :
    letterOf score maxScore ∈ letterBands ∧
    (∀ score2 maxScore2 : ℚ, 0 ≤ score2 → 1 ≤ maxScore2 →
      score / maxScore * 100 ≤ score2 / maxScore2 * 100 →
      bandRank (letterOf score maxScore) ≤ bandRank (letterOf score2 maxScore2)) := by
  constructor
  · exact gradeOfPercentage_mem _
  · intro score2 maxScore2 _ _ hle
    exact bandRank_gradeOfPercentage_mono hle

/-- Concrete runs of C7: the spec's worked examples — 97/100 is A+ and lies
in the band list, 64/100 is F, 65/100 is D, and rank is monotone between
64/100 and 97/100. -/
theorem letterOf_total_monotone_witness :
    letterOf 97 100 ∈ letterBands ∧
    letterOf 97 100 = "A+" ∧
    letterOf 64 100 = "F" ∧
    letterOf 65 100 = "D" ∧
    bandRank (letterOf 64 100) ≤ bandRank (letterOf 97 100) :=
  ⟨(letterOf_total_monotone 97 100 (by norm_num) (by norm_num)).1,
   by norm_num [letterOf, gradeOfPercentage],
   by norm_num [letterOf, gradeOfPercentage],
   by norm_num [letterOf, gradeOfPercentage],
   (letterOf_total_monotone 64 100 (by norm_num) (by norm_num)).2 97 100
     (by norm_num) (by norm_num) (by norm_num)⟩

/-- The `$group` accumulator of the dashboard aggregate equals the pair of
plain sums over the group. -/
lemma aggTotals_spec (g : List GradeRec) :
    aggTotals g = ((g.map GradeRec.score).sum, (g.map GradeRec.maxScore).sum) := by
  unfold aggTotals
  suffices h : ∀ a b : ℚ,
      g.foldl (fun acc r => (acc.1 + r.score, acc.2 + r.maxScore)) (a, b) =
        (a + (g.map GradeRec.score).sum, b + (g.map GradeRec.maxScore).sum) by
    simpa using h 0 0
  induction g with
  | nil => intro a b; simp
  | cons r g ih =>
    intro a b
    rw [List.foldl_cons, ih]
    simp [add_assoc]

/-- The student-route accumulator equals the sum of individual percentages
paired with the record count. -/
lemma routeSubjectTotals_spec (g : List GradeRec) :
    routeSubjectTotals g = ((g.map recPercentage).sum, (g.length : ℚ)) := by
  unfold routeSubjectTotals
  suffices h : ∀ a b : ℚ,
      g.foldl (fun acc r => (acc.1 + recPercentage r, acc.2 + 1)) (a, b) =
        (a + (g.map recPercentage).sum, b + (g.length : ℚ)) by
    simpa using h 0 0
  induction g with
  | nil => intro a b; simp
  | cons r g ih =>
    intro a b
    rw [List.foldl_cons, ih]
    refine Prod.ext ?_ ?_
    · simp [add_assoc]
    · simp only [List.length_cons]
      push_cast
      ring

/-- C8 (amended): the dashboard aggregate (`generateAnalytics`
`performanceData`) reports the pooled per-subject average
`100 × Σscore / ΣmaxScore`; the per-student grade-analytics route instead
reports the arithmetic mean of the individual records' percentages.  The
two disagree whenever `maxScore` varies within a subject (see the
counterexample). -/
theorem subjectAverage_pooled_and_route (g : List GradeRec) :
    performanceAverage g =
      100 * ((g.map GradeRec.score).sum / (g.map GradeRec.maxScore).sum) ∧
    routeSubjectAverage g = (g.map recPercentage).sum / (g.length : ℚ) := by
  constructor
  · unfold performanceAverage
    rw [aggTotals_spec]
    ring
  · unfold routeSubjectAverage
    rw [routeSubjectTotals_spec]

/-- Two grades of one subject with different `maxScore`. -/
def cexSubjectRecords : List GradeRec :=
  [{ studentId := 1, subjectName := "Math", score := 1, maxScore := 1 },
   { studentId := 2, subjectName := "Math", score := 0, maxScore := 99 }]

/-- C8 (counterexample): on two records of the same subject with
`maxScore` 1 and 99, the student-analytics route reports 50 while the
pooled value `100 × Σscore / ΣmaxScore` is 1 — the reported per-subject
average is not the pooled value. -/
theorem routeSubjectAverage_not_pooled :
    routeSubjectAverage cexSubjectRecords = 50 ∧
    100 * ((cexSubjectRecords.map GradeRec.score).sum /
      (cexSubjectRecords.map GradeRec.maxScore).sum) = 1 ∧
    routeSubjectAverage cexSubjectRecords ≠
      100 * ((cexSubjectRecords.map GradeRec.score).sum /
        (cexSubjectRecords.map GradeRec.maxScore).sum) := by
  refine ⟨?_, ?_, ?_⟩ <;>
    norm_num [routeSubjectAverage, routeSubjectTotals, recPercentage, cexSubjectRecords]

/-- Concrete run of C8 (amended): on the two-record subject group the
pooled dashboard average is 1 and the route mean is 50. -/
theorem subjectAverage_pooled_and_route_witness :
    performanceAverage cexSubjectRecords = 1 ∧
    routeSubjectAverage cexSubjectRecords = 50 := by
  constructor
  · rw [(subjectAverage_pooled_and_route cexSubjectRecords).1]
    norm_num [cexSubjectRecords]
  · rw [(subjectAverage_pooled_and_route cexSubjectRecords).2]
    norm_num [cexSubjectRecords, recPercentage]

/-- Field values of an accepted payment: `paidAmount` grows by the paid
amount and the history gains exactly the new entry. -/
lemma processPayment_ok_fields (fee : Fee) (a : ℚ) (m : String) (now : Int)
    (fee2 : Fee) (hok : processPayment fee a m now = Except.ok fee2) :
    fee2.paidAmount = fee.paidAmount + a ∧
    fee2.paymentHistory = fee.paymentHistory ++ [⟨a, now, m⟩] := by
  simp only [processPayment] at hok
  split_ifs at hok <;>
  · first
    | exact Except.noConfusion hok
    | (injection hok with h2
       subst h2
       exact ⟨rfl, rfl⟩)

/-- C9 (amended): the payment route rejects any amount exceeding the
remaining balance `amount + lateFee - discount - paidAmount` (leaving the
stored Fee unchanged — the `error` branch carries no new record); every
accepted payment appends exactly one payment-history entry and adds its
amount to `paidAmount`; and an accepted payment with a non-negative amount
never decreases `paidAmount`.  (The route does not validate the sign of
the amount, so a negative amount can be accepted and decrease
`paidAmount` — see the counterexample.) -/
theorem processPayment_characterization (fee : Fee) (a : ℚ) (m : String) (now : Int) :
    (a > fee.amount + fee.lateFee - fee.discount - fee.paidAmount →
      processPayment fee a m now = Except.error "Payment amount exceeds remaining balance") ∧
    (∀ fee2, processPayment fee a m now = Except.ok fee2 →
      fee2.paidAmount = fee.paidAmount + a ∧
      fee2.paymentHistory = fee.paymentHistory ++ [⟨a, now, m⟩]) ∧
    (0 ≤ a → ∀ fee2, processPayment fee a m now = Except.ok fee2 →
      fee.paidAmount ≤ fee2.paidAmount) := by
  refine ⟨?_, ?_, ?_⟩
  · intro hgt
    unfold processPayment
    rw [if_pos hgt]
  · intro fee2 hok
    exact processPayment_ok_fields fee a m now fee2 hok
  · intro ha fee2 hok
    have h := (processPayment_ok_fields fee a m now fee2 hok).1
    rw [h]
    linarith

/-- A fully paid sample fee (`paidAmount = totalDue = 100`). -/
def paidFee : Fee :=
  { id := 2
    studentId := some 1
    feeType := "tuition"
    amount := 100
    paidAmount := 100
    dueDate := 10
    paidDate := some 5
    status := FeeStatus.paid
    discount := 0
    lateFee := 0
    paymentHistory := [] }

/-- `paidFee` after the route accepts a payment of −50. -/
def paidFeeAfterRefund : Fee :=
  { paidFee with
      paidAmount := 50
      paymentHistory := [{ amount := -50, date := 20, method := "cash" }]
      status := FeeStatus.partlyPaid }

/-- C9 (counterexample): the payment route accepts a payment of −50 on a
fully paid fee (−50 does not exceed the remaining balance 0) and
`paidAmount` drops from 100 to 50 — an accepted payment decreased
`paidAmount`. -/
theorem processPayment_negative_decreases :
    processPayment paidFee (-50) "cash" 20 = Except.ok paidFeeAfterRefund ∧
    paidFeeAfterRefund.paidAmount < paidFee.paidAmount := by
  constructor
  · simp only [processPayment, paidFee, paidFeeAfterRefund]
    norm_num [computeFeeStatus]
    exact Option.some_ne_none _
  · norm_num [paidFee, paidFeeAfterRefund]

/-- `sampleFee` after the route accepts a payment of 40. -/
def sampleFeeAfter40 : Fee :=
  { sampleFee with
      paidAmount := 40
      paymentHistory := [{ amount := 40, date := 20, method := "cash" }]
      paidDate := some 20
      status := FeeStatus.partlyPaid }

/-- Concrete runs of C9 (amended): a payment of 10 on the fully paid fee
(remaining balance 0) is rejected, and an accepted payment of 40 on the
unpaid sample fee raises `paidAmount` from 0 to 40. -/
theorem processPayment_characterization_witness :
    processPayment paidFee 10 "cash" 20 =
      Except.error "Payment amount exceeds remaining balance" ∧
    sampleFee.paidAmount ≤ sampleFeeAfter40.paidAmount :=
  ⟨(processPayment_characterization paidFee 10 "cash" 20).1 (by norm_num [paidFee]),
   (processPayment_characterization sampleFee 40 "cash" 20).2.2 (by norm_num)
     sampleFeeAfter40
     (by norm_num [processPayment, computeFeeStatus, sampleFee, sampleFeeAfter40])⟩

/-- C10: on an empty matching record set, every rate and average field the
aggregators report is 0 — the student route's overall average (via the
`|| 0` guard), the class route's average score (same guard), the dashboard
average attendance (explicit emptiness guard), and the fee overview
collection rate (`totalAmount > 0` guard). -/
theorem aggregators_zero_case :
    studentOverallReported [] = 0 ∧
    classAverageReported [] = 0 ∧
    avgAttendanceReported [] = 0 ∧
    collectionRateReported [] = 0 := by
  refine ⟨?_, ?_, ?_, ?_⟩ <;>
    simp [studentOverallReported, classAverageReported, avgAttendanceReported,
      collectionRateReported]

end SchoolMS
